import Mathlib

/-!
Verification of the elvish line-editor core (package `edit`) against its
natural-language specification.

The Go sources are shallowly embedded:
* Go `string` values are byte lists (`GoStr`); Go slicing `s[:b]`, `s[e:]`
  and `len` become `List.take`, `List.drop` and `List.length`, which agree
  with Go's byte-oriented semantics.
* Go `int` becomes `Int`.
* Go code that can panic (out-of-range indexing, calling a `nil` map entry)
  is embedded as an `Option`-returning function, `none` meaning panic.
* `error` values become the inductive `GoError`; `fmt.Errorf` wrapping
  becomes a dedicated constructor.
-/

/-- A Go string, as its byte sequence. -/
abbrev GoStr := List Nat

/-- Go `error` values produced by the edit package.  `fmt.Errorf` wrapping
with a fixed format string is modelled by a dedicated constructor carrying
the wrapped error. -/
inductive GoError where
  /-- an arbitrary error coming from a collaborator (tty, reader, writer) -/
  | custom (s : String)
  /-- Wrapping by `fmt.Errorf("can't restore terminal attribute: %s", err)` -/
  | cantRestore (inner : GoError)
deriving DecidableEq, Repr

/-- Model of `strings.HasPrefix(s, p)`: `true` iff `p` is a prefix of `s`. -/
def hasPrefix (s p : GoStr) : Bool :=
  p.isPrefixOf s

/-- Type `LineRead` is the result of ReadLine.  The Go doc comment states:
"Exactly one member is non-zero, making it effectively a tagged union." -/
structure LineRead where
  Line : GoStr
  EOF : Bool
  Err : Option GoError
deriving DecidableEq, Repr

/-- The `bufferMode` enumeration. -/
inductive bufferMode where
  | modeInsert
  | modeCommand
  | modeCompletion
  | modeNavigation
  | modeHistory
deriving DecidableEq, Repr

/-- Structure `historyState` from the source: items, current index, the line saved on
entering history mode, and the filter prefix.  The Go field `prefix` is
renamed `pfx` (reserved word restrictions). -/
structure historyState where
  items : List GoStr
  current : Int
  saved : GoStr
  pfx : GoStr
deriving DecidableEq, Repr

/-- Method `(*historyState).append`: `hs.items = append(hs.items, line)`. -/
def historyState.append (hs : historyState) (line : GoStr) : historyState :=
  { hs with items := hs.items ++ [line] }

/-- Descending scan of `prev`'s loop body: `findLastMatch items pre n`
visits indices `n-1, n-2, ..., 0` in order and returns the first (hence
largest) index whose item has prefix `pre`.  Every index visited by the Go
loop within range is read with `getD` (exact for valid indices; `prev`
separately accounts for the panicking out-of-range case). -/
def findLastMatch (items : List GoStr) (pre : GoStr) : Nat → Option Nat
  | 0 => none
  | n + 1 => if hasPrefix (items.getD n []) pre then some n else findLastMatch items pre n

/-- Ascending scan of `next`'s loop body, with explicit fuel: starting at
index `i`, visit `i, i+1, ...` for `count` steps and return the first index
whose item has prefix `pre`. -/
def findFirstMatchAux (items : List GoStr) (pre : GoStr) : Nat → Nat → Option Nat
  | 0, _ => none
  | n + 1, i => if hasPrefix (items.getD i []) pre then some i else findFirstMatchAux items pre n (i + 1)

/-- Ascending scan from index `i` to the end of `items`. -/
def findFirstMatch (items : List GoStr) (pre : GoStr) (i : Nat) : Option Nat :=
  findFirstMatchAux items pre (items.length - i) i

/-- Method `(*historyState).prev`:
```go
for i := hs.current - 1; i >= 0; i-- {
    if strings.HasPrefix(hs.items[i], hs.prefix) { hs.current = i; return true }
}
return false
```
The loop's indices decrease from `current-1`, so `hs.items[i]` panics iff
`current - 1 ≥ len(items)` (the first index visited is already out of
range); that case is `none`.  Otherwise every visited index is in range and
the loop is the descending scan `findLastMatch` over `current-1, ..., 0`
(no iterations when `current ≤ 0`, matching `Int.toNat`). -/
def historyState.prev (hs : historyState) : Option (Bool × historyState) :=
  if (hs.items.length : Int) < hs.current then
    none
  else
    match findLastMatch hs.items hs.pfx hs.current.toNat with
    | some i => some (true, { hs with current := (i : Int) })
    | none => some (false, hs)

/-- Method `(*historyState).next`:
```go
for i := hs.current + 1; i < len(hs.items); i++ {
    if strings.HasPrefix(hs.items[i], hs.prefix) { hs.current = i; return true }
}
return false
```
The loop's indices increase from `current+1`, so `hs.items[i]` panics iff
`current + 1 < 0` (a negative index is visited first, and `current+1 < 0 ≤
len(items)` lets the loop body run); that case is `none`.  Otherwise the
loop is the ascending scan over `current+1, ..., len(items)-1`. -/
def historyState.next (hs : historyState) : Option (Bool × historyState) :=
  if hs.current + 1 < 0 then
    none
  else
    match findFirstMatch hs.items hs.pfx (hs.current + 1).toNat with
    | some i => some (true, { hs with current := (i : Int) })
    | none => some (false, hs)

/-- A completion candidate.  Modelled from the spec: the completion state
holds `candidates: [{text, style, menu}]`; `acceptCompletion` in the source
only reads `.text`. -/
structure candidate where
  text : GoStr
  style : String
deriving DecidableEq, Repr

/-- The completion state.  Modelled from the spec ("`{candidates, current,
begin, end, ...}` — `begin`/`end` delimit the byte range of the line being
replaced; `current` is selected index or −1") together with the source's
uses `c.candidates`, `c.current`, `c.start`, `c.end`.  The Go fields
`start`/`end` are named `start`/`stop` (`end` is reserved in Lean). -/
structure completionState where
  candidates : List candidate
  current : Int
  start : Int
  stop : Int
deriving DecidableEq, Repr

/-- The per-ReadLine `editorState` of the source.  The `tokens` field (the
highlighter's token stream) and the `navigation` pointer are carried by the
source but irrelevant to every claim below; `tokens` is omitted and
`navigation` kept as a unit-valued pointer. -/
structure editorState where
  prompt : String
  rprompt : String
  line : GoStr
  dot : Int
  tips : List String
  mode : bufferMode
  completion : Option completionState
  completionLines : Int
  navigation : Option Unit
  history : historyState
deriving DecidableEq, Repr

/-- Method `(*Editor).acceptCompletion`:
```go
c := ed.completion
if 0 <= c.current && c.current < len(c.candidates) {
    accepted := c.candidates[c.current].text
    ed.line = ed.line[:c.start] + accepted + ed.line[c.end:]
    ed.dot += len(accepted) - (c.end - c.start)
}
ed.completion = nil
ed.mode = modeInsert
```
Dereferencing a nil `ed.completion` panics (`none`).  Go slicing
`ed.line[:c.start]`/`ed.line[c.end:]` is embedded with `take`/`drop` on
`Int.toNat`, exact whenever `0 ≤ start` and `0 ≤ stop`. -/
def acceptCompletion (ed : editorState) : Option editorState :=
  match ed.completion with
  | none => none
  | some c =>
    let ed' :=
      if 0 ≤ c.current ∧ c.current < (c.candidates.length : Int) then
        let accepted := (c.candidates.getD c.current.toNat ⟨[], ""⟩).text
        { ed with
          line := ed.line.take c.start.toNat ++ accepted ++ ed.line.drop c.stop.toNat,
          dot := ed.dot + ((accepted.length : Int) - (c.stop - c.start)) }
      else ed
    some { ed' with completion := none, mode := .modeInsert }

/-- Method `(*Editor).acceptHistory`:
```go
ed.line = ed.history.items[ed.history.current]
ed.dot = len(ed.line)
```
Indexing with an out-of-range `current` panics (`none`). -/
def acceptHistory (ed : editorState) : Option editorState :=
  if 0 ≤ ed.history.current ∧ ed.history.current < (ed.history.items.length : Int) then
    let l := ed.history.items.getD ed.history.current.toNat []
    some { ed with line := l, dot := (l.length : Int) }
  else
    none

/-- Method `(*Editor).finishReadLine`, with the result of `CleanupTerminal`
(external terminal restoration) passed in as `cleanupErr`:
```go
if lr.EOF == false && lr.Err == nil { ed.history.append(lr.Line) }
ed.tips = nil
ed.mode = modeInsert
ed.completion = nil
ed.dot = len(ed.line)
ed.rprompt = ""
ed.refresh() // XXX(xiaq): Ignore possible error
ed.file.WriteString("\n")
err := CleanupTerminal(ed.file, ed.savedTermios)
if err != nil {
    *lr = LineRead{Err: fmt.Errorf("can't restore terminal attribute: %s", err)}
}
```
`refresh` and the newline write only touch the screen, not the state
modelled here.  Returns the new state and the (possibly overwritten)
`LineRead`. -/
def finishReadLine (ed : editorState) (lr : LineRead) (cleanupErr : Option GoError) :
    editorState × LineRead :=
  let ed := if lr.EOF = false ∧ lr.Err = none then
      { ed with history := ed.history.append lr.Line }
    else ed
  let ed := { ed with
    tips := [], mode := .modeInsert, completion := none,
    dot := (ed.line.length : Int), rprompt := "" }
  match cleanupErr with
  | some e => (ed, { Line := [], EOF := false, Err := some (.cantRestore e) })
  | none => (ed, lr)

/-- Observable terminal writes of `startReadLine`. -/
inductive TermOut where
  /-- the cursor-position query `"\033[6n"` -/
  | cprQuery
  /-- Write of `LackEOL`, the inverse-video return glyph plus newline -/
  | lackEOL
deriving DecidableEq, Repr

/-- Method `(*Editor).startReadLine`, with the results of the external calls
passed in: `setup` is `SetupTerminal`'s error, and `cpr` is `readCPR`'s
result.  `readCPR` is not part of this repository; modelled from the spec:
"`readCPR() → (row, col) | err`" — its successful result is the pair
`(row, col)`.  The source binds the first component:
```go
ed.file.WriteString("\033[6n")
x, _, err := ed.reader.readCPR()
if err != nil { return err }
if x != 1 { ed.file.WriteString(LackEOL) }
return nil
```
Returns the error result and the list of terminal writes performed. -/
def startReadLine (setup : Option GoError) (cpr : GoError ⊕ (Int × Int)) :
    Option GoError × List TermOut :=
  match setup with
  | some e => (some e, [])
  | none =>
    match cpr with
    | .inl e => (some e, [.cprQuery])
    | .inr (x, _) => (none, [.cprQuery] ++ if x ≠ 1 then [.lackEOL] else [])

/-- Special non-rune key codes.  Modelled from the spec: "Special non-rune
codes (arrows, PageUp/Down, Enter, Tab, Backspace, Delete) occupy a
reserved range.  A sentinel `DefaultBinding` matches any key not otherwise
bound." -/
inductive specialCode where
  | backspace | delete | left | right | up | down | enter | tab | pageUp | pageDown
  /-- the reserved code of the `DefaultBinding` sentinel key -/
  | defaultSentinel
deriving DecidableEq, Repr

/-- The rune component of a `Key`: a printable rune or a special code. -/
inductive keyRune where
  | printable (c : Char)
  | special (s : specialCode)
deriving DecidableEq, Repr

/-- Type `Key` is a pair of a rune and modifier bits.  Modelled from the spec:
"Pair of (rune, modifier-bits), where modifiers are a set drawn from
{Ctrl, Alt, Shift}." -/
structure Key where
  r : keyRune
  mod : Nat
deriving DecidableEq, Repr

/-- The Ctrl modifier bit (concrete value immaterial). -/
def Ctrl : Nat := 1

/-- The Alt modifier bit (concrete value immaterial). -/
def Alt : Nat := 2

/-- The `DefaultBinding` sentinel key. -/
def DefaultBinding : Key := ⟨.special .defaultSentinel, 0⟩

/-- The built-in `keyBindings` table of the source, as an association list
per mode (every mode of the Go map literal is present, so the model is a
total function):
```go
var keyBindings = map[bufferMode]map[Key]string{ ... }
``` -/
def keyBindings : bufferMode → List (Key × String)
  | .modeCommand =>
    [(⟨.printable 'i', 0⟩, "start-insert"),
     (⟨.printable 'h', 0⟩, "move-dot-left"),
     (⟨.printable 'l', 0⟩, "move-dot-right"),
     (⟨.printable 'D', 0⟩, "kill-line-right"),
     (DefaultBinding, "default-command")]
  | .modeInsert =>
    [(⟨.printable '[', Ctrl⟩, "start-command"),
     (⟨.printable 'U', Ctrl⟩, "kill-line-left"),
     (⟨.printable 'K', Ctrl⟩, "kill-line-right"),
     (⟨.special .backspace, 0⟩, "kill-rune-left"),
     (⟨.special .delete, 0⟩, "kill-rune-right"),
     (⟨.special .left, 0⟩, "move-dot-left"),
     (⟨.special .right, 0⟩, "move-dot-right"),
     (⟨.special .up, 0⟩, "move-dot-up"),
     (⟨.special .down, 0⟩, "move-dot-down"),
     (⟨.special .enter, Alt⟩, "insert-key"),
     (⟨.special .enter, 0⟩, "return-line"),
     (⟨.printable 'D', Ctrl⟩, "return-eof"),
     (⟨.special .tab, 0⟩, "start-completion"),
     (⟨.special .pageUp, 0⟩, "start-history"),
     (⟨.printable 'N', Ctrl⟩, "start-navigation"),
     (DefaultBinding, "default-insert")]
  | .modeCompletion =>
    [(⟨.printable '[', Ctrl⟩, "cancel-completion"),
     (⟨.special .up, 0⟩, "select-cand-up"),
     (⟨.special .down, 0⟩, "select-cand-down"),
     (⟨.special .left, 0⟩, "select-cand-left"),
     (⟨.special .right, 0⟩, "select-cand-right"),
     (⟨.special .tab, 0⟩, "cycle-cand-right"),
     (DefaultBinding, "default-completion")]
  | .modeNavigation =>
    [(⟨.special .up, 0⟩, "select-nav-up"),
     (⟨.special .down, 0⟩, "select-nav-down"),
     (⟨.special .left, 0⟩, "ascend-nav"),
     (⟨.special .right, 0⟩, "descend-nav"),
     (DefaultBinding, "default-navigation")]
  | .modeHistory =>
    [(⟨.printable '[', Ctrl⟩, "cancel-history"),
     (⟨.special .pageUp, 0⟩, "select-history-prev"),
     (⟨.special .pageDown, 0⟩, "select-history-next"),
     (DefaultBinding, "default-history")]

/-- All values of the `bufferMode` enumeration (the range of the Go map). -/
def allBufferModes : List bufferMode :=
  [.modeInsert, .modeCommand, .modeCompletion, .modeNavigation, .modeHistory]

/-- The return value of an editor builtin (`*leReturn` in the source);
`none` at the call site models a nil return. -/
inductive leReturn where
  | noAction
  | changeMode (newMode : bufferMode)
  | changeModeAndReprocess (newMode : bufferMode)
  | exitReadLine (readLineReturn : LineRead)
deriving DecidableEq, Repr

/-- The type of an editor builtin: it may mutate the editor state and
return an action result (or nil). -/
abbrev leBuiltin := editorState → Key → editorState × Option leReturn

/-- UTF-8 encoding of a code point, byte by byte. -/
def utf8Encode (c : Char) : GoStr :=
  let n := c.toNat
  if n < 0x80 then [n]
  else if n < 0x800 then [0xC0 + n / 0x40, 0x80 + n % 0x40]
  else if n < 0x10000 then
    [0xE0 + n / 0x1000, 0x80 + n / 0x40 % 0x40, 0x80 + n % 0x40]
  else
    [0xF0 + n / 0x40000, 0x80 + n / 0x1000 % 0x40, 0x80 + n / 0x40 % 0x40, 0x80 + n % 0x40]

/-- Modelled from the spec: the behaviour of the named editor builtins
(their Go definitions are not part of this repository's sources).
* `return-line` — "return-line (submit)", "`return-line` (success, line
  appended to history)": exits with `LineRead{Line: ed.line}`.
* `return-eof` — "return-eof (only valid when line is empty)", scenario S2:
  empty line exits with `LineRead{EOF: true}`; scenario S3: on a non-empty
  line the key is ignored (a beep/tip, no exit).
* `default-insert` — "Printable keys call the fallback action which
  inserts at `dot`": inserts the key's rune at `dot` and advances `dot` by
  its byte length; non-printable keys are ignored.
* `start-command` — "`start-command`" switches to command mode.
* All remaining registered actions are not exercised by any theorem below
  and are modelled as no-ops returning `noAction`. -/
def builtinAction : String → leBuiltin
  | "return-line" => fun ed _ =>
      (ed, some (.exitReadLine { Line := ed.line, EOF := false, Err := none }))
  | "return-eof" => fun ed _ =>
      if ed.line = [] then
        (ed, some (.exitReadLine { Line := [], EOF := true, Err := none }))
      else
        (ed, some .noAction)
  | "default-insert" => fun ed k =>
      match k.r with
      | .printable c =>
        let bs := utf8Encode c
        ({ ed with
            line := ed.line.take ed.dot.toNat ++ bs ++ ed.line.drop ed.dot.toNat,
            dot := ed.dot + (bs.length : Int) }, some .noAction)
      | .special _ => (ed, some .noAction)
  | "start-command" => fun ed _ => (ed, some (.changeMode .modeCommand))
  | _ => fun ed _ => (ed, some .noAction)

/-- The names registered in the `leBuiltins` action registry.  Modelled
from the spec: the registry's Go definition is not part of this
repository's sources; the spec's keymap and action descriptions (§4.5,
§4.6) name these actions, and the startup validation requires exactly that
each of them is registered. -/
def leBuiltinNames : List String :=
  ["start-insert", "move-dot-left", "move-dot-right", "kill-line-right",
   "default-command",
   "start-command", "kill-line-left", "kill-rune-left", "kill-rune-right",
   "move-dot-up", "move-dot-down", "insert-key", "return-line", "return-eof",
   "start-completion", "start-history", "start-navigation", "default-insert",
   "cancel-completion", "select-cand-up", "select-cand-down",
   "select-cand-left", "select-cand-right", "cycle-cand-right",
   "default-completion",
   "select-nav-up", "select-nav-down", "ascend-nav", "descend-nav",
   "default-navigation",
   "cancel-history", "select-history-prev", "select-history-next",
   "default-history"]

/-- The `leBuiltins` registry: a string-keyed map of builtin functions;
lookup of an unregistered name yields `none` (Go `nil`). -/
def leBuiltins (name : String) : Option leBuiltin :=
  if leBuiltinNames.contains name then some (builtinAction name) else none

/-- Validation loop of the `init` function:
```go
for _, kb := range keyBindings {
    for _, name := range kb {
        if leBuiltins[name] == nil {
            panic("bad keyBindings table: no editor builtin named " + name)
        }
    }
}
```
`true` iff the panic branch is reached for some binding. -/
def initPanics : Bool :=
  allBufferModes.any fun m => (keyBindings m).any fun p => (leBuiltins p.2).isNone

/-- Key lookup of the dispatch step:
```go
name, bound := keyBinding[k]
if !bound { name = keyBinding[DefaultBinding] }
```
If neither the key nor `DefaultBinding` is bound, `name` is the zero value
`""` (every built-in mode does bind `DefaultBinding`). -/
def lookupName (m : bufferMode) (k : Key) : String :=
  match (keyBindings m).lookup k with
  | some name => name
  | none => ((keyBindings m).lookup DefaultBinding).getD ""

/-- One dispatch of a key in the ReadLine loop, from the `lookupKey` label
through the `switch ret.action`:
```go
lookupKey:
    keyBinding, ok := keyBindings[ed.mode]
    if !ok { ed.pushTip("No binding for current mode"); continue }
    name, bound := keyBinding[k]
    if !bound { name = keyBinding[DefaultBinding] }
    ret := leBuiltins[name](ed, k)
    if ret == nil { continue }
    switch ret.action {
    case noAction: continue
    case changeMode: ed.mode = ret.newMode; continue
    case changeModeAndReprocess: ed.mode = ret.newMode; goto lookupKey
    case exitReadLine: return ret.readLineReturn
    }
```
The `!ok` branch is dead: the Go map literal binds every `bufferMode`, as
does the model's total `keyBindings`.  Calling a `nil` registry entry
panics (`none`).  The `goto` re-enters with the same key; `fuel` bounds the
number of re-entries (no modelled action reprocesses, so any positive fuel
is exact).  Returns the state and `some lr` when the loop exits. -/
def dispatchKey : Nat → editorState → Key → Option (editorState × Option LineRead)
  | 0, ed, _ => some (ed, none)
  | fuel + 1, ed, k =>
    match leBuiltins (lookupName ed.mode k) with
    | none => none
    | some act =>
      match act ed k with
      | (ed', none) => some (ed', none)
      | (ed', some .noAction) => some (ed', none)
      | (ed', some (.changeMode m)) => some ({ ed' with mode := m }, none)
      | (ed', some (.changeModeAndReprocess m)) => dispatchKey fuel { ed' with mode := m } k
      | (ed', some (.exitReadLine lr)) => some (ed', some lr)

/-- One scripted input event of the ReadLine loop: a decoded key or a key
reader error (`readKey() → Key | err`). -/
inductive readEvent where
  | key (k : Key)
  | readErr (e : GoError)
deriving DecidableEq, Repr

/-- Rendering `err.Error()` of the modelled Go errors. -/
def GoError.message : GoError → String
  | .custom s => s
  | .cantRestore e => "can't restore terminal attribute: " ++ e.message

/-- The outcome of running the ReadLine loop on a finite event script. -/
inductive loopResult where
  /-- the script is exhausted; `readKey` would block for more input -/
  | blocked
  /-- a Go panic (nil registry entry called) -/
  | panics
  /-- Exit by `return` out of the loop with this state and `LineRead` -/
  | exited (ed : editorState) (lr : LineRead)
deriving DecidableEq, Repr

/-- The `for` loop of `ReadLine`, driven by a finite event script:
```go
for {
    ed.prompt = prompt()
    ed.rprompt = rprompt()
    err := ed.refresh()
    if err != nil { return LineRead{Err: err} }
    ed.tips = nil
    k, err := ed.reader.readKey()
    if err != nil { ed.pushTip(err.Error()); continue }
    ... dispatch (see dispatchKey) ...
}
```
The prompt callbacks are modelled as the constant strings `promptS` and
`rpromptS`.  `refresh` only repaints the screen through the external
writer; it is modelled as succeeding (its error exit is not exercised). -/
def readLineLoop (promptS rpromptS : String) : editorState → List readEvent → loopResult
  | _, [] => .blocked
  | ed, ev :: rest =>
    let ed := { ed with prompt := promptS, rprompt := rpromptS, tips := [] }
    match ev with
    | .readErr e => readLineLoop promptS rpromptS { ed with tips := ed.tips ++ [e.message] } rest
    | .key k =>
      match dispatchKey 2 ed k with
      | none => .panics
      | some (ed', none) => readLineLoop promptS rpromptS ed' rest
      | some (ed', some lr) => .exited ed' lr

/-- The outcome of a scripted `ReadLine` call. -/
inductive readLineResult where
  | blocked
  | panics
  /-- the returned `LineRead` together with the final editor state -/
  | done (ed : editorState) (lr : LineRead)
deriving DecidableEq, Repr

/-- Method `(*Editor).ReadLine`, with the external interactions passed in as
arguments: `setup`/`cpr` feed `startReadLine`, `events` scripts the key
reader, and `cleanupErr` is `CleanupTerminal`'s result inside the deferred
`finishReadLine`:
```go
func (ed *Editor) ReadLine(prompt, rprompt func() string) (lr LineRead) {
    err := ed.startReadLine()
    if err != nil { return LineRead{Err: err} }
    defer ed.finishReadLine(&lr)
    ed.line = ""
    ed.mode = modeInsert
    ed.tips = nil
    ed.completion = nil
    ed.dot = 0
    ed.writer.oldBuf.cells = nil
    for { ... }
}
```
Note the `defer` is registered after the `startReadLine` error return, so
a start failure bypasses `finishReadLine` entirely. -/
def ReadLine (promptS rpromptS : String) (ed0 : editorState) (setup : Option GoError)
    (cpr : GoError ⊕ (Int × Int)) (events : List readEvent)
    (cleanupErr : Option GoError) : readLineResult :=
  match (startReadLine setup cpr).1 with
  | some e => .done ed0 { Line := [], EOF := false, Err := some e }
  | none =>
    let ed := { ed0 with line := [], mode := .modeInsert, tips := [], completion := none, dot := 0 }
    match readLineLoop promptS rpromptS ed events with
    | .blocked => .blocked
    | .panics => .panics
    | .exited ed' lr =>
      let r := finishReadLine ed' lr cleanupErr
      .done r.1 r.2

/-- The `LineRead` carried by a `done` result. -/
def readLineResult.lineRead : readLineResult → Option LineRead
  | .done _ lr => some lr
  | _ => none

/-- A screen cell.  Modelled from the spec: "A displayed unit: UTF-8 text
of width 1 or 2 (or 0 for combining), plus a style string."  The text is
kept as a single rune; its display width is measured externally (wcwidth),
so it is carried alongside. -/
structure cell where
  text : Char
  width : Nat
  style : String
deriving DecidableEq, Repr

/-- The screen buffer.  Modelled from the spec: "Width-bounded grid: a
sequence of rows, each a sequence of cells.  Carries `width`, optional
`indent`, a `dot` position `(line, col)`, and a flag `newlineWhenFull`";
`col` is the current writing column of the last row. -/
structure buffer where
  width : Int
  col : Int
  indent : Int
  newlineWhenFull : Bool
  cells : List (List cell)
  dot : Int × Int
deriving DecidableEq, Repr

/-- Function `newBuffer(width)`: an empty buffer with one empty row. -/
def newBuffer (w : Int) : buffer :=
  { width := w, col := 0, indent := 0, newlineWhenFull := false, cells := [[]], dot := (0, 0) }

/-- Function `lineWidth`: the displayed width of one row, the sum of its cells'
widths (modelled from the spec's "row's displayed width"). -/
def lineWidth (row : List cell) : Nat :=
  (row.map (·.width)).sum

/-- Append a cell to the last row of a row list. -/
def appendCell (rows : List (List cell)) (c : cell) : List (List cell) :=
  rows.dropLast ++ [rows.getLastD [] ++ [c]]

/-- Method `(*buffer).write(rune, style)` for a rune of display width `w`.
Modelled from the spec: "append one character, advancing `col` by its
wcwidth.  If `col + w > width` and `newlineWhenFull`, start a new row
indented by `indent` before writing; if not wrapping, clip." -/
def buffer.write (b : buffer) (r : Char) (w : Nat) (style : String) : buffer :=
  if b.col + (w : Int) ≤ b.width then
    { b with cells := appendCell b.cells ⟨r, w, style⟩, col := b.col + (w : Int) }
  else if b.newlineWhenFull then
    let pad : List cell := List.replicate b.indent.toNat ⟨' ', 1, ""⟩
    { b with cells := b.cells ++ [pad ++ [⟨r, w, style⟩]], col := b.indent + (w : Int) }
  else b

/-- Method `(*buffer).writes(string, style)`: repeated `write` over the string's
runes (each paired with its externally measured width). -/
def buffer.writes (b : buffer) (s : List (Char × Nat)) (style : String) : buffer :=
  s.foldl (fun b p => b.write p.1 p.2 style) b

/-- Methods `(*buffer).line() = len(b.cells) - 1` and
`(*buffer).cursor() = pos{b.line(), b.col}`. -/
def buffer.cursor (b : buffer) : Int × Int :=
  ((b.cells.length : Int) - 1, b.col)

/-- The style constants used by the modeline (`styleForMode`,
`styleForFilter` and the scrollbar styles are not in the sources; their
values are immaterial to the claims). -/
def styleForMode : String := "mode"

/-- See `styleForMode`. -/
def styleForFilter : String := "filter"

/-- See `styleForMode`. -/
def styleForScrThumb : String := "scrollbar-thumb"

/-- See `styleForMode`. -/
def styleForScrArea : String := "scrollbar-area"

/-- Structure `modeLineRenderer` from the source: a title and a filter text.  Styled
strings are modelled as rune/width lists (wcwidth is external). -/
structure modeLineRenderer where
  title : List (Char × Nat)
  filter : List (Char × Nat)
deriving DecidableEq, Repr

/-- Method `modeLineRenderer.render`:
```go
b.writes(ml.title, styleForMode.String())
b.writes(" ", "")
b.writes(ml.filter, styleForFilter.String())
b.dot = b.cursor()
``` -/
def modeLineRenderer.render (ml : modeLineRenderer) (b : buffer) : buffer :=
  let b := b.writes ml.title styleForMode
  let b := b.writes [(' ', 1)] ""
  let b := b.writes ml.filter styleForFilter
  { b with dot := b.cursor }

/-- Function `writeHorizontalScrollbar(b, n, low, high, width)`.  Modelled from the
spec: a one-row horizontal scrollbar of the given width whose filled
region is proportional to `[low, high)` of `n` total items. -/
def writeHorizontalScrollbar (b : buffer) (n low high w : Int) : buffer :=
  let thumbLow : Int := if n ≤ 0 then 0 else low * w / n
  let thumbHigh : Int := if n ≤ 0 then w else (high * w + n - 1) / n
  (List.range w.toNat).foldl
    (fun acc i =>
      if thumbLow ≤ (i : Int) ∧ (i : Int) < thumbHigh then
        acc.write '━' 1 styleForScrThumb
      else
        acc.write '═' 1 styleForScrArea)
    b

/-- Structure `modeLineWithScrollBarRenderer` from the source: an embedded
`modeLineRenderer` plus `n, low, high`. -/
structure modeLineWithScrollBarRenderer where
  ml : modeLineRenderer
  n : Int
  low : Int
  high : Int
deriving DecidableEq, Repr

/-- Method `modeLineWithScrollBarRenderer.render`:
```go
ml.modeLineRenderer.render(b)
scrollbarWidth := b.width - lineWidth(b.cells[len(b.cells)-1]) - 2
if scrollbarWidth >= 3 {
    b.writes(" ", "")
    writeHorizontalScrollbar(b, ml.n, ml.low, ml.high, scrollbarWidth)
}
```
(`b.cells` is never empty: `newBuffer` starts with one row and writes only
add rows, so the `len-1` indexing is `getLastD`.) -/
def modeLineWithScrollBarRenderer.render (r : modeLineWithScrollBarRenderer) (b : buffer) : buffer :=
  let b := r.ml.render b
  let scrollbarWidth := b.width - (lineWidth (b.cells.getLastD []) : Int) - 2
  if 3 ≤ scrollbarWidth then
    writeHorizontalScrollbar (b.writes [(' ', 1)] "") r.n r.low r.high scrollbarWidth
  else b

/-- The number of display columns still free after the content of a
buffer's last row. -/
def remainingCols (b : buffer) : Int :=
  b.width - (lineWidth (b.cells.getLastD []) : Int)


/-- The history items carried by a `done` result. -/
def readLineResult.historyItems : readLineResult → Option (List GoStr)
  | .done ed _ => some ed.history.items
  | _ => none

/-- Specification formula for `prev`/`next` on one history state: `prev`
moves `current` to the largest index below it whose item starts with the
filter prefix (or fails leaving the state unchanged), `next` is symmetric
above, and a successful `prev` is undone by `next` whenever the origin is a
valid index whose item itself starts with the prefix. -/
def prevNextSpec (hs : historyState) : Prop :=
  ((∃ i : Nat, hs.prev = some (true, { hs with current := (i : Int) }) ∧
      (i : Int) < hs.current ∧ i < hs.items.length ∧
      hasPrefix (hs.items.getD i []) hs.pfx = true ∧
      ∀ j : Nat, i < j → (j : Int) < hs.current → hasPrefix (hs.items.getD j []) hs.pfx = false)
    ∨ (hs.prev = some (false, hs) ∧
       ∀ j : Nat, j < hs.items.length → (j : Int) < hs.current →
         hasPrefix (hs.items.getD j []) hs.pfx = false))
  ∧
  ((∃ i : Nat, hs.next = some (true, { hs with current := (i : Int) }) ∧
      hs.current < (i : Int) ∧ i < hs.items.length ∧
      hasPrefix (hs.items.getD i []) hs.pfx = true ∧
      ∀ j : Nat, hs.current < (j : Int) → j < i → hasPrefix (hs.items.getD j []) hs.pfx = false)
    ∨ (hs.next = some (false, hs) ∧
       ∀ j : Nat, j < hs.items.length → hs.current < (j : Int) →
         hasPrefix (hs.items.getD j []) hs.pfx = false))
  ∧
  (∀ hs', hs.prev = some (true, hs') →
    hs.current < (hs.items.length : Int) →
    hasPrefix (hs.items.getD hs.current.toNat []) hs.pfx = true →
    hs'.next = some (true, hs))

/-- Total number of cells in a buffer (a measure that `write` never
decreases). -/
def totalCells (b : buffer) : Nat :=
  (b.cells.map List.length).sum

/-- The writing invariant of a buffer: nonnegative indent, and the current
column equals the displayed width of the last row. -/
def goodBuf (b : buffer) : Prop :=
  0 ≤ b.indent ∧ b.col = (lineWidth (b.cells.getLastD []) : Int)

/-! ## Helper lemmas -/

/-- Soundness of the descending scan: a found index is below the scan
start, matches, and nothing between it and the start matches. -/
theorem findLastMatch_some (items : List GoStr) (pre : GoStr) :
    ∀ n i, findLastMatch items pre n = some i →
      i < n ∧ hasPrefix (items.getD i []) pre = true ∧
      ∀ j, i < j → j < n → hasPrefix (items.getD j []) pre = false := by
  intro n
  induction n with
  | zero => intro i h; simp [findLastMatch] at h
  | succ n ih =>
    intro i h
    rw [findLastMatch] at h
    by_cases hm : hasPrefix (items.getD n []) pre = true
    · rw [if_pos hm] at h
      obtain rfl : n = i := Option.some.inj h
      exact ⟨Nat.lt_succ_self n, hm, fun j hij hjn => absurd hjn (by omega)⟩
    · rw [if_neg hm] at h
      obtain ⟨h1, h2, h3⟩ := ih i h
      refine ⟨by omega, h2, fun j hij hjn => ?_⟩
      rcases Nat.lt_or_ge j n with hj | hj
      · exact h3 j hij hj
      · obtain rfl : j = n := by omega
        exact Bool.not_eq_true _ ▸ (by simpa using hm)

/-- Completeness of the descending scan: a failed scan means no index
below the start matches. -/
theorem findLastMatch_none (items : List GoStr) (pre : GoStr) :
    ∀ n, findLastMatch items pre n = none →
      ∀ j, j < n → hasPrefix (items.getD j []) pre = false := by
  intro n
  induction n with
  | zero => intro _ j hj; omega
  | succ n ih =>
    intro h j hj
    rw [findLastMatch] at h
    by_cases hm : hasPrefix (items.getD n []) pre = true
    · rw [if_pos hm] at h; exact Option.noConfusion h
    · rw [if_neg hm] at h
      rcases Nat.lt_or_ge j n with hj' | hj'
      · exact ih h j hj'
      · obtain rfl : j = n := by omega
        simpa using hm

/-- Soundness of the ascending scan: a found index lies in the scanned
window, matches, and nothing before it in the window matches. -/
theorem findFirstMatchAux_some (items : List GoStr) (pre : GoStr) :
    ∀ cnt i j, findFirstMatchAux items pre cnt i = some j →
      i ≤ j ∧ j < i + cnt ∧ hasPrefix (items.getD j []) pre = true ∧
      ∀ k, i ≤ k → k < j → hasPrefix (items.getD k []) pre = false := by
  intro cnt
  induction cnt with
  | zero => intro i j h; simp [findFirstMatchAux] at h
  | succ n ih =>
    intro i j h
    rw [findFirstMatchAux] at h
    by_cases hm : hasPrefix (items.getD i []) pre = true
    · rw [if_pos hm] at h
      obtain rfl : i = j := Option.some.inj h
      exact ⟨le_refl i, by omega, hm, fun k hik hki => absurd hki (by omega)⟩
    · rw [if_neg hm] at h
      obtain ⟨h1, h2, h3, h4⟩ := ih (i + 1) j h
      refine ⟨by omega, by omega, h3, fun k hik hki => ?_⟩
      rcases Nat.lt_or_ge k (i + 1) with hk | hk
      · obtain rfl : k = i := by omega
        simpa using hm
      · exact h4 k hk hki

/-- Completeness of the ascending scan: a failed scan means nothing in the
scanned window matches. -/
theorem findFirstMatchAux_none (items : List GoStr) (pre : GoStr) :
    ∀ cnt i, findFirstMatchAux items pre cnt i = none →
      ∀ k, i ≤ k → k < i + cnt → hasPrefix (items.getD k []) pre = false := by
  intro cnt
  induction cnt with
  | zero => intro i _ k hk1 hk2; omega
  | succ n ih =>
    intro i h k hk1 hk2
    rw [findFirstMatchAux] at h
    by_cases hm : hasPrefix (items.getD i []) pre = true
    · rw [if_pos hm] at h; exact Option.noConfusion h
    · rw [if_neg hm] at h
      rcases Nat.lt_or_ge k (i + 1) with hk | hk
      · obtain rfl : k = i := by omega
        simpa using hm
      · exact ih (i + 1) h k hk (by omega)

/-- Minimality characterizes the ascending scan's result: the least
matching index in the window is found. -/
theorem findFirstMatchAux_min (items : List GoStr) (pre : GoStr) :
    ∀ cnt i j, i ≤ j → j < i + cnt → hasPrefix (items.getD j []) pre = true →
      (∀ k, i ≤ k → k < j → hasPrefix (items.getD k []) pre = false) →
      findFirstMatchAux items pre cnt i = some j := by
  intro cnt
  induction cnt with
  | zero => intro i j h1 h2; omega
  | succ n ih =>
    intro i j h1 h2 h3 h4
    rw [findFirstMatchAux]
    rcases Nat.lt_or_ge i j with hij | hij
    · rw [if_neg (by simpa using h4 i (le_refl i) hij)]
      exact ih (i + 1) j hij (by omega) h3 (fun k hk1 hk2 => h4 k (by omega) hk2)
    · obtain rfl : i = j := by omega
      rw [if_pos h3]

/-- Appending a cell to the last row adds exactly one cell to the total. -/
theorem totalCells_appendCell :
    ∀ (rows : List (List cell)) (c : cell),
      ((appendCell rows c).map List.length).sum = (rows.map List.length).sum + 1
  | [], c => by simp [appendCell]
  | [x], c => by simp [appendCell]
  | x :: y :: rest, c => by
    have ih := totalCells_appendCell (y :: rest) c
    simp only [appendCell, List.getLastD_cons, List.dropLast_cons₂, List.cons_append,
      List.map_cons, List.sum_cons] at ih ⊢
    omega

/-- Writing never removes cells. -/
theorem totalCells_write_le (b : buffer) (r : Char) (w : Nat) (s : String) :
    totalCells b ≤ totalCells (b.write r w s) := by
  unfold buffer.write
  split
  · simp only [totalCells, totalCells_appendCell]
    omega
  · split
    · simp only [totalCells, List.map_append, List.sum_append]
      omega
    · exact le_refl _

/-- A write that fits on the current row adds exactly one cell. -/
theorem totalCells_write_fits (b : buffer) (r : Char) (w : Nat) (s : String)
    (h : b.col + (w : Int) ≤ b.width) :
    totalCells (b.write r w s) = totalCells b + 1 := by
  unfold buffer.write
  rw [if_pos h]
  simp only [totalCells, totalCells_appendCell]

/-- Folding a cell-count-monotone step is cell-count-monotone. -/
theorem totalCells_foldl_le {α : Type} (f : buffer → α → buffer)
    (hf : ∀ b a, totalCells b ≤ totalCells (f b a)) :
    ∀ (l : List α) (b : buffer), totalCells b ≤ totalCells (l.foldl f b)
  | [], b => le_refl _
  | a :: l, b => le_trans (hf b a) (totalCells_foldl_le f hf l (f b a))

/-- String writes never remove cells. -/
theorem totalCells_writes_le (b : buffer) (s : List (Char × Nat)) (st : String) :
    totalCells b ≤ totalCells (b.writes s st) := by
  unfold buffer.writes
  exact totalCells_foldl_le _ (fun b p => totalCells_write_le b p.1 p.2 st) s b

/-- A branch between two writes never removes cells. -/
theorem totalCells_ite_write_le (b : buffer) (c : Prop) [Decidable c]
    (r1 : Char) (w1 : Nat) (s1 : String) (r2 : Char) (w2 : Nat) (s2 : String) :
    totalCells b ≤ totalCells (if c then b.write r1 w1 s1 else b.write r2 w2 s2) := by
  split
  · exact totalCells_write_le ..
  · exact totalCells_write_le ..

/-- The horizontal scrollbar writer never removes cells. -/
theorem totalCells_writeHorizontalScrollbar_le (b : buffer) (n low high w : Int) :
    totalCells b ≤ totalCells (writeHorizontalScrollbar b n low high w) := by
  unfold writeHorizontalScrollbar
  apply totalCells_foldl_le
  intro b i
  exact totalCells_ite_write_le ..

/-- The last row after `appendCell` is the old last row plus the cell. -/
theorem getLastD_appendCell (rows : List (List cell)) (c : cell) :
    (appendCell rows c).getLastD [] = rows.getLastD [] ++ [c] := by
  unfold appendCell
  rw [List.getLastD_concat]

/-- One write preserves the buffer invariant. -/
theorem goodBuf_write (b : buffer) (r : Char) (w : Nat) (s : String)
    (h : goodBuf b) : goodBuf (b.write r w s) := by
  obtain ⟨h1, h2⟩ := h
  unfold buffer.write
  split
  · refine ⟨h1, ?_⟩
    rw [getLastD_appendCell]
    simp only [lineWidth, List.map_append, List.sum_append, List.map_cons, List.sum_cons,
      List.map_nil, List.sum_nil]
    simp only [lineWidth] at h2
    push_cast at h2 ⊢
    omega
  · split
    · refine ⟨h1, ?_⟩
      rw [List.getLastD_concat]
      simp only [lineWidth, List.map_append, List.sum_append, List.map_cons, List.sum_cons,
        List.map_nil, List.sum_nil, List.map_replicate, List.sum_replicate, smul_eq_mul,
        mul_one]
      push_cast
      omega
    · exact ⟨h1, h2⟩

/-- String writes preserve the buffer invariant. -/
theorem goodBuf_writes (b : buffer) (s : List (Char × Nat)) (st : String)
    (h : goodBuf b) : goodBuf (b.writes s st) := by
  unfold buffer.writes
  induction s generalizing b with
  | nil => exact h
  | cons p l ih => exact ih _ (goodBuf_write b p.1 p.2 st h)

/-- A fresh buffer satisfies the invariant. -/
theorem goodBuf_newBuffer (w : Int) : goodBuf (newBuffer w) := by
  constructor
  · simp [newBuffer]
  · simp [newBuffer, lineWidth]

/-- The modeline render of a fresh buffer satisfies the invariant. -/
theorem goodBuf_modeLineRender (ml : modeLineRenderer) (w : Int) :
    goodBuf (ml.render (newBuffer w)) := by
  unfold modeLineRenderer.render
  exact goodBuf_writes _ _ _ (goodBuf_writes _ _ _ (goodBuf_writes _ _ _ (goodBuf_newBuffer w)))

/-! ## Claim theorems -/

/-- Claim C1 (confirmed).  For every line, completion range `[b,e)` with
`0 <= b <= e <= len(line)`, selected candidate with text `t`, and original
dot `>= e`, accepting the completion yields
`line' = line[:b] + t + line[e:]` and `dot' = dot + len(t) - (e-b)`. -/
theorem acceptCompletion_replaces_range (ed : editorState) (c : completionState)
    (t : GoStr) (st : String)
    (hc : ed.completion = some c)
    (h0 : 0 ≤ c.start) (hse : c.start ≤ c.stop) (hel : c.stop ≤ (ed.line.length : Int))
    (hcur : 0 ≤ c.current) (hcl : c.current < (c.candidates.length : Int))
    (hsel : c.candidates[c.current.toNat]? = some ⟨t, st⟩)
    (hdot : c.stop ≤ ed.dot) :
    ∃ ed', acceptCompletion ed = some ed' ∧
      ed'.line = ed.line.take c.start.toNat ++ t ++ ed.line.drop c.stop.toNat ∧
      ed'.dot = ed.dot + (t.length : Int) - (c.stop - c.start) := by
  have hg : c.candidates.getD c.current.toNat ⟨[], ""⟩ = ⟨t, st⟩ := by
    rw [List.getD_eq_getElem?_getD, hsel, Option.getD_some]
  unfold acceptCompletion
  rw [hc]
  simp only [hg, if_pos (And.intro hcur hcl)]
  refine ⟨_, rfl, rfl, ?_⟩
  show ed.dot + ((t.length : Int) - (c.stop - c.start)) = ed.dot + (t.length : Int) - (c.stop - c.start)
  omega

/-- Witness for C1: accepting candidate `"hello"` over `[5,6)` of
`"echo h"` with dot 6 yields `"echo hello"` and dot 10. -/
theorem acceptCompletion_replaces_range_witness :
    (({ prompt := "", rprompt := "", line := [101, 99, 104, 111, 32, 104], dot := 6,
        tips := [], mode := .modeCompletion,
        completion := some { candidates := [⟨[104, 101, 108, 108, 111], ""⟩], current := 0,
                             start := 5, stop := 6 },
        completionLines := 0, navigation := none,
        history := ⟨[], 0, [], []⟩ } : editorState).completion =
      some { candidates := [⟨[104, 101, 108, 108, 111], ""⟩], current := 0,
             start := 5, stop := 6 }) ∧
    (∃ ed', acceptCompletion
        { prompt := "", rprompt := "", line := [101, 99, 104, 111, 32, 104], dot := 6,
          tips := [], mode := .modeCompletion,
          completion := some { candidates := [⟨[104, 101, 108, 108, 111], ""⟩], current := 0,
                               start := 5, stop := 6 },
          completionLines := 0, navigation := none,
          history := ⟨[], 0, [], []⟩ } = some ed' ∧
      ed'.line = ([101, 99, 104, 111, 32, 104] : GoStr).take 5 ++ [104, 101, 108, 108, 111] ++
        ([101, 99, 104, 111, 32, 104] : GoStr).drop 6 ∧
      ed'.dot = 6 + (([104, 101, 108, 108, 111] : GoStr).length : Int) - (6 - 5)) := by
  refine ⟨rfl, ?_⟩
  exact acceptCompletion_replaces_range _
    { candidates := [⟨[104, 101, 108, 108, 111], ""⟩], current := 0, start := 5, stop := 6 }
    [104, 101, 108, 108, 111] "" rfl (by decide) (by decide) (by decide) (by decide)
    (by decide) (by decide) (by decide)

/-- Counterexample to claim C2 as stated.  A `ReadLine` call that enters
the line `"h"` and then fails to restore the terminal returns an
error-carrying `LineRead` (not a successful `Line`), yet the entered line
was appended to history — so "appended iff the result is a successful
`Line`" and "on error the history is unchanged" are both false. -/
theorem readLine_append_despite_restore_error :
    (readLineResult.historyItems
        (ReadLine "" ""
          { prompt := "", rprompt := "", line := [], dot := 0, tips := [],
            mode := .modeInsert, completion := none, completionLines := 0,
            navigation := none, history := ⟨[], 0, [], []⟩ }
          none (.inr (1, 1))
          [.key ⟨.printable 'h', 0⟩, .key ⟨.special .enter, 0⟩]
          (some (.custom "tc"))) = some [[104]]) ∧
    (readLineResult.lineRead
        (ReadLine "" ""
          { prompt := "", rprompt := "", line := [], dot := 0, tips := [],
            mode := .modeInsert, completion := none, completionLines := 0,
            navigation := none, history := ⟨[], 0, [], []⟩ }
          none (.inr (1, 1))
          [.key ⟨.printable 'h', 0⟩, .key ⟨.special .enter, 0⟩]
          (some (.custom "tc"))) =
      some { Line := [], EOF := false, Err := some (.cantRestore (.custom "tc")) }) :=
  ⟨rfl, rfl⟩

/-- Claim C2 (amended).  The entered line is appended to history exactly
once iff the `LineRead` produced by the editor loop — before terminal
restoration — is a successful `Line` (not EOF and no error); on EOF or a
loop error the history is unchanged.  A failed terminal restore may still
replace the returned `LineRead` with an error afterwards, with the
appended line remaining in history. -/
theorem finishReadLine_append_iff_loop_success (ed : editorState) (lr : LineRead)
    (cleanupErr : Option GoError) :
    (finishReadLine ed lr cleanupErr).1.history.items =
      ed.history.items ++ (if lr.EOF = false ∧ lr.Err = none then [lr.Line] else []) := by
  unfold finishReadLine historyState.append
  by_cases h : lr.EOF = false ∧ lr.Err = none
  · rw [if_pos h, if_pos h]
    cases cleanupErr <;> rfl
  · rw [if_neg h, if_neg h]
    cases cleanupErr <;> simp

/-- Claim C3 (code bug).  With `readCPR` returning `(row, col)` as the
spec declares, the source binds the first component (the row) and writes
the lack-EOL indicator iff that row is not 1 — not iff the column is not
1.  At `(row, col) = (2, 1)` the indicator is written although the column
is 1; at `(1, 5)` it is not written although the column is not 1. -/
theorem startReadLine_tests_row_not_column :
    (startReadLine none (.inr (2, 1))).2 = [.cprQuery, .lackEOL] ∧
    (startReadLine none (.inr (1, 5))).2 = [.cprQuery] := by
  constructor
  · rfl
  · rfl

/-- Counterexample to claim C4 as stated.  From the state with items
`["a"]`, empty prefix and `current = 1`, `prev()` succeeds and moves
`current` to 0, but the following `next()` returns `false` and leaves
`current` at 0 — alternating `prev`/`next` does not return to the origin
(the origin index 1 is not a valid item index). -/
theorem history_prev_next_not_inverse :
    historyState.prev ⟨[[97]], 1, [], []⟩ = some (true, ⟨[[97]], 0, [], []⟩) ∧
    historyState.next ⟨[[97]], 0, [], []⟩ = some (false, ⟨[[97]], 0, [], []⟩) :=
  ⟨rfl, rfl⟩

/-- Claim C4 (amended).  For every history state with
`-1 <= current <= len(items)` (outside this range the Go loops panic on an
out-of-range index): `prev()` sets `current` to the largest index
`i < current` whose item starts with `prefix` and returns true, or returns
false leaving the state unchanged when no such index exists; `next()` is
symmetric over indices `> current`; and after a successful `prev()` from
origin `o`, a `next()` returns `current` to `o` provided `o` is a valid
index and `items[o]` itself starts with `prefix`. -/
theorem historyState_prev_next_spec (hs : historyState)
    (h1 : -1 ≤ hs.current) (h2 : hs.current ≤ (hs.items.length : Int)) :
    prevNextSpec hs := by
  obtain ⟨items, cur, saved, pfx⟩ := hs
  dsimp only at h1 h2 ⊢
  rw [prevNextSpec]
  dsimp only
  refine ⟨?_, ?_, ?_⟩
  · -- prev characterization
    rw [historyState.prev]
    dsimp only
    rw [if_neg (by omega)]
    cases hfm : findLastMatch items pfx cur.toNat with
    | some i =>
      obtain ⟨ha, hb, hc⟩ := findLastMatch_some items pfx _ _ hfm
      exact Or.inl ⟨i, rfl, by omega, by omega, hb, fun j hij hjc => hc j hij (by omega)⟩
    | none =>
      exact Or.inr ⟨rfl, fun j _ hjc => findLastMatch_none items pfx _ hfm j (by omega)⟩
  · -- next characterization
    rw [historyState.next]
    dsimp only
    rw [if_neg (by omega)]
    rw [findFirstMatch]
    cases hfm : findFirstMatchAux items pfx (items.length - (cur + 1).toNat) (cur + 1).toNat with
    | some i =>
      obtain ⟨ha, hb, hc, hd⟩ := findFirstMatchAux_some items pfx _ _ _ hfm
      exact Or.inl ⟨i, rfl, by omega, by omega, hc, fun j hcj hji => hd j (by omega) hji⟩
    | none =>
      exact Or.inr ⟨rfl, fun j hjl hcj =>
        findFirstMatchAux_none items pfx _ _ hfm j (by omega) (by omega)⟩
  · -- alternation returns to the origin
    intro hs' hp hcl hcm
    rw [historyState.prev] at hp
    dsimp only at hp hcl hcm
    by_cases hover : (items.length : Int) < cur
    · rw [if_pos hover] at hp; exact Option.noConfusion hp
    · rw [if_neg hover] at hp
      cases hfm : findLastMatch items pfx cur.toNat with
      | none => rw [hfm] at hp; simp at hp
      | some i =>
        rw [hfm] at hp
        obtain ⟨ha, hb, hc⟩ := findLastMatch_some items pfx _ _ hfm
        have hs'eq : hs' = ⟨items, (i : Int), saved, pfx⟩ :=
          (congrArg Prod.snd (Option.some.inj hp)).symm
        subst hs'eq
        rw [historyState.next]
        dsimp only
        rw [if_neg (by omega)]
        rw [findFirstMatch]
        have htn : ((i : Int) + 1).toNat = i + 1 := by omega
        rw [htn]
        have hmin := findFirstMatchAux_min items pfx (items.length - (i + 1)) (i + 1)
          cur.toNat (by omega) (by omega) hcm (fun k hk1 hk2 => hc k (by omega) hk2)
        rw [hmin]
        have hcc : ((cur.toNat : Nat) : Int) = cur := by omega
        dsimp only
        rw [hcc]

/-- Witness for C4: history `["ga", "x", "gb"]`, prefix `"g"`, current 3
satisfies the range hypotheses (the scenario-S5 shape). -/
theorem historyState_prev_next_spec_witness :
    (-1 ≤ ((⟨[[103, 97], [120], [103, 98]], 3, [], [103]⟩ : historyState)).current ∧
     ((⟨[[103, 97], [120], [103, 98]], 3, [], [103]⟩ : historyState)).current ≤
       ((((⟨[[103, 97], [120], [103, 98]], 3, [], [103]⟩ : historyState)).items.length : Int))) ∧
    prevNextSpec ⟨[[103, 97], [120], [103, 98]], 3, [], [103]⟩ :=
  ⟨⟨by decide, by decide⟩,
   historyState_prev_next_spec ⟨[[103, 97], [120], [103, 98]], 3, [], [103]⟩
     (by decide) (by decide)⟩

/-- Claim C5 (code bug).  The `LineRead` doc comment promises exactly one
non-zero member, but pressing Enter on an empty line makes `ReadLine`
return `LineRead{Line: "", EOF: false, Err: nil}`, whose members are all
zero. -/
theorem readLine_empty_enter_all_zero :
    readLineResult.lineRead
        (ReadLine "" ""
          { prompt := "", rprompt := "", line := [], dot := 0,
            tips := [], mode := .modeInsert, completion := none,
            completionLines := 0, navigation := none, history := ⟨[], 0, [], []⟩ }
          none (.inr (1, 1)) [.key ⟨.special .enter, 0⟩] none) =
      some { Line := [], EOF := false, Err := none } ∧
    ¬(({ Line := [], EOF := false, Err := none } : LineRead).Line ≠ [] ∨
      ({ Line := [], EOF := false, Err := none } : LineRead).EOF = true ∨
      ({ Line := [], EOF := false, Err := none } : LineRead).Err ≠ none) := by
  constructor
  · rfl
  · decide

/-- Claim C6 (confirmed).  Every action name bound by any mode of the
built-in `keyBindings` table resolves to a registered entry of the
`leBuiltins` registry, so the startup validation's panic branch is
unreachable. -/
theorem keyBindings_resolve :
    initPanics = false ∧
    (allBufferModes.all fun m =>
      (keyBindings m).all fun p => (leBuiltins p.2).isSome) = true := by
  constructor
  · rfl
  · rfl

/-- Counterexample to claim C7 as stated.  A modeline of width 7 in a
buffer of width 10 leaves exactly 3 columns after the content, yet the
render with scrollbar equals the plain modeline render — no scrollbar is
drawn although at least 3 columns remain. -/
theorem modeline_scrollbar_three_columns_not_drawn :
    remainingCols (modeLineRenderer.render
        ⟨[('a', 1), ('b', 1), ('c', 1), ('d', 1), ('e', 1), ('f', 1)], []⟩ (newBuffer 10)) = 3 ∧
    modeLineWithScrollBarRenderer.render
        ⟨⟨[('a', 1), ('b', 1), ('c', 1), ('d', 1), ('e', 1), ('f', 1)], []⟩, 5, 0, 2⟩
        (newBuffer 10) =
      modeLineRenderer.render
        ⟨[('a', 1), ('b', 1), ('c', 1), ('d', 1), ('e', 1), ('f', 1)], []⟩ (newBuffer 10) :=
  ⟨rfl, rfl⟩

/-- Claim C7 (amended).  For every modeline-with-scrollbar render into a
fresh buffer of width `W`, the trailing horizontal scrollbar is drawn iff
at least 5 columns remain after the modeline content on the last row: the
source reserves 2 columns (`scrollbarWidth = W - lineWidth - 2`) and draws
only when the scrollbar is at least 3 columns wide. -/
theorem modeline_scrollbar_iff (title filter : List (Char × Nat)) (w n low high : Int) :
    modeLineWithScrollBarRenderer.render ⟨⟨title, filter⟩, n, low, high⟩ (newBuffer w) ≠
        modeLineRenderer.render ⟨title, filter⟩ (newBuffer w) ↔
      5 ≤ remainingCols (modeLineRenderer.render ⟨title, filter⟩ (newBuffer w)) := by
  constructor
  · intro hne
    by_contra h5
    apply hne
    unfold modeLineWithScrollBarRenderer.render
    dsimp only
    rw [if_neg (by simp only [remainingCols] at h5; omega)]
  · intro h5
    unfold modeLineWithScrollBarRenderer.render
    dsimp only
    rw [if_pos (by simp only [remainingCols] at h5; omega)]
    intro heq
    have hgood := goodBuf_modeLineRender ⟨title, filter⟩ w
    have hfits : (modeLineRenderer.render ⟨title, filter⟩ (newBuffer w)).col + ((1 : Nat) : Int) ≤
        (modeLineRenderer.render ⟨title, filter⟩ (newBuffer w)).width := by
      have h2 := hgood.2
      simp only [remainingCols] at h5
      omega
    have h1 : totalCells ((modeLineRenderer.render ⟨title, filter⟩ (newBuffer w)).writes
        [(' ', 1)] "") =
        totalCells (modeLineRenderer.render ⟨title, filter⟩ (newBuffer w)) + 1 := by
      unfold buffer.writes
      simp only [List.foldl_cons, List.foldl_nil]
      exact totalCells_write_fits _ _ _ _ hfits
    have h2 := totalCells_writeHorizontalScrollbar_le
      ((modeLineRenderer.render ⟨title, filter⟩ (newBuffer w)).writes [(' ', 1)] "") n low high
      ((modeLineRenderer.render ⟨title, filter⟩ (newBuffer w)).width -
        ((lineWidth ((modeLineRenderer.render ⟨title, filter⟩ (newBuffer w)).cells.getLastD [])
          : Nat) : Int) - 2)
    rw [heq, h1] at h2
    omega

/-- Claim C8 (confirmed).  If restoring the terminal fails at the end of
`ReadLine`, the returned `LineRead` carries the restore error, overriding
whatever result (line, EOF, or earlier error) the loop produced. -/
theorem finishReadLine_restore_error_overrides (ed : editorState) (lr : LineRead) (e : GoError) :
    (finishReadLine ed lr (some e)).2 =
      { Line := [], EOF := false, Err := some (.cantRestore e) } := rfl

/-- Claim C9 (confirmed).  For every editor state in completion mode whose
selected index is out of range (`current < 0` or
`current >= len(candidates)`), `acceptCompletion` leaves the line and dot
(indeed the whole state but for the completion pointer and mode)
unchanged, while in all cases it clears the completion state and sets the
mode to insert. -/
theorem acceptCompletion_out_of_range (ed : editorState) (c : completionState)
    (hm : ed.mode = .modeCompletion) (hc : ed.completion = some c) :
    ((c.current < 0 ∨ (c.candidates.length : Int) ≤ c.current) →
      acceptCompletion ed = some { ed with completion := none, mode := .modeInsert }) ∧
    (∃ ed', acceptCompletion ed = some ed' ∧ ed'.completion = none ∧ ed'.mode = .modeInsert) := by
  obtain ⟨p, rp, l, d, tp, m, comp, cl, nav, hi⟩ := ed
  simp only at hc
  subst hc
  constructor
  · intro hout
    simp only [acceptCompletion]
    rw [if_neg (by omega)]
  · simp only [acceptCompletion]
    exact ⟨_, rfl, rfl, rfl⟩

/-- Witness for C9: a completion-mode state with no candidates and
`current = -1`. -/
theorem acceptCompletion_out_of_range_witness :
    (({ prompt := "", rprompt := "", line := [104], dot := 1,
        tips := [], mode := .modeCompletion,
        completion := some { candidates := [], current := -1, start := 0, stop := 0 },
        completionLines := 0, navigation := none,
        history := ⟨[], 0, [], []⟩ } : editorState).mode = .modeCompletion) ∧
    (((((-1 : Int)) < 0 ∨ ((([] : List candidate).length : Int)) ≤ -1) →
      acceptCompletion
        { prompt := "", rprompt := "", line := [104], dot := 1,
          tips := [], mode := .modeCompletion,
          completion := some { candidates := [], current := -1, start := 0, stop := 0 },
          completionLines := 0, navigation := none,
          history := ⟨[], 0, [], []⟩ } =
        some { prompt := "", rprompt := "", line := [104], dot := 1,
               tips := [], mode := .modeInsert, completion := none,
               completionLines := 0, navigation := none,
               history := ⟨[], 0, [], []⟩ }) ∧
     (∃ ed', acceptCompletion
        { prompt := "", rprompt := "", line := [104], dot := 1,
          tips := [], mode := .modeCompletion,
          completion := some { candidates := [], current := -1, start := 0, stop := 0 },
          completionLines := 0, navigation := none,
          history := ⟨[], 0, [], []⟩ } = some ed' ∧
        ed'.completion = none ∧ ed'.mode = .modeInsert)) :=
  ⟨rfl,
   acceptCompletion_out_of_range
     { prompt := "", rprompt := "", line := [104], dot := 1,
       tips := [], mode := .modeCompletion,
       completion := some { candidates := [], current := -1, start := 0, stop := 0 },
       completionLines := 0, navigation := none,
       history := ⟨[], 0, [], []⟩ }
     { candidates := [], current := -1, start := 0, stop := 0 } rfl rfl⟩

/-- Claim C10 (confirmed).  For every history state with `current` a valid
index, `acceptHistory` sets the editor's line to `items[current]` and sets
dot to the byte length of that line. -/
theorem acceptHistory_sets_line_dot (ed : editorState) (l : GoStr)
    (h0 : 0 ≤ ed.history.current)
    (hsel : ed.history.items[ed.history.current.toNat]? = some l) :
    acceptHistory ed = some { ed with line := l, dot := (l.length : Int) } := by
  have hlt : ed.history.current.toNat < ed.history.items.length := by
    by_contra h
    rw [List.getElem?_eq_none (by omega)] at hsel
    exact Option.noConfusion hsel
  have hg : ed.history.items.getD ed.history.current.toNat [] = l := by
    rw [List.getD_eq_getElem?_getD, hsel, Option.getD_some]
  simp only [acceptHistory]
  rw [if_pos ⟨h0, by omega⟩, hg]

/-- Witness for C10: history `["ga", "gb"]` with `current = 1` accepts to
line `"gb"` with dot 2. -/
theorem acceptHistory_sets_line_dot_witness :
    ((0 : Int) ≤
      ({ prompt := "", rprompt := "", line := [], dot := 0,
         tips := [], mode := .modeHistory, completion := none,
         completionLines := 0, navigation := none,
         history := ⟨[[103, 97], [103, 98]], 1, [], [103]⟩ } : editorState).history.current) ∧
    acceptHistory
        { prompt := "", rprompt := "", line := [], dot := 0,
          tips := [], mode := .modeHistory, completion := none,
          completionLines := 0, navigation := none,
          history := ⟨[[103, 97], [103, 98]], 1, [], [103]⟩ } =
      some { prompt := "", rprompt := "", line := [103, 98],
             dot := (([103, 98] : GoStr).length : Int),
             tips := [], mode := .modeHistory, completion := none,
             completionLines := 0, navigation := none,
             history := ⟨[[103, 97], [103, 98]], 1, [], [103]⟩ } :=
  ⟨by decide,
   acceptHistory_sets_line_dot
     { prompt := "", rprompt := "", line := [], dot := 0,
       tips := [], mode := .modeHistory, completion := none,
       completionLines := 0, navigation := none,
       history := ⟨[[103, 97], [103, 98]], 1, [], [103]⟩ }
     [103, 98] (by decide) (by decide)⟩
